import Mathlib

/-!
Verification of the mini-audit-trail-generator backend (server.js).

The backend tokenizes text snapshots into word sequences, computes a
multiset-style added/removed word diff between the stored snapshot and a
newly submitted one, and records a version entry per accepted save.  The
definitions below are a shallow embedding of the relevant JavaScript
functions: `extractWords`, `findAddedWords`, `findRemovedWords`,
`generateVersionEntry` and the `POST /save-version` handler.

Two points of JavaScript semantics are modelled explicitly because they
change observable behaviour:
* the word-count tables are plain `{}` objects, so a lookup of a word
  that collides with a property of `Object.prototype` (for example
  `"constructor"` or `"toString"`) reaches the inherited value through
  the prototype chain instead of defaulting to 0; the counts for such a
  word are then truthy non-numbers, the `newCount - oldCount` loop bound
  is NaN, and nothing is ever emitted for the word (`jsWordCount`
  returns `none` there);
* the handler guards only `text === undefined || text === null`, with no
  `typeof` check, so a non-string, non-null `text` value (a number, a
  boolean, an array, an object) is accepted, compared by strict
  equality, saved, and stored as `currentText` (`NonStrVal`, `JSText`).

The ambient uuid / clock / file-system effects are passed as explicit
parameters.
-/

namespace MiniAuditTrail

/-- Whitespace test for one character, modelling the JavaScript regexp
class `\s` (space, tab, line/paragraph separators, NBSP, BOM and the
Unicode Zs block). -/
def isWs (c : Char) : Bool :=
  c == ' ' || c == '\t' || c == '\n' || c == '\r' ||
  c.toNat == 0x0b || c.toNat == 0x0c ||
  c.toNat == 0xa0 || c.toNat == 0x1680 ||
  (0x2000 <= c.toNat && c.toNat <= 0x200a) ||
  c.toNat == 0x2028 || c.toNat == 0x2029 || c.toNat == 0x202f ||
  c.toNat == 0x205f || c.toNat == 0x3000 || c.toNat == 0xfeff

/-- JavaScript `String.prototype.trim`: drop whitespace from both ends. -/
def jsTrim (cs : List Char) : List Char :=
  ((cs.dropWhile isWs).reverse.dropWhile isWs).reverse

/-- One pass of JavaScript `str.split(/\s+/)` over the characters.
`skipping = true` means the scanner is inside a whitespace run that has
already terminated the previous fragment; `cur` holds the current
fragment reversed.  As in JavaScript, an empty fragment is produced when
the input starts or ends with whitespace. -/
def jsSplitWsAux : List Char → List Char → Bool → List (List Char)
  | [], _, true => [[]]
  | [], cur, false => [cur.reverse]
  | c :: cs, cur, true =>
    if isWs c then jsSplitWsAux cs cur true
    else jsSplitWsAux cs [c] false
  | c :: cs, cur, false =>
    if isWs c then cur.reverse :: jsSplitWsAux cs [] true
    else jsSplitWsAux cs (c :: cur) false

/-- JavaScript `str.split(/\s+/)`: fragments separated by maximal
whitespace runs. -/
def jsSplitWs (cs : List Char) : List (List Char) :=
  jsSplitWsAux cs [] false

/-- The value passed to `extractWords`: a string, `null`, `undefined`,
or some non-string value. -/
inductive JSInput where
  | str (s : String)
  | null
  | undefined
  | nonString
  deriving DecidableEq

/-- `extractWords` from server.js: `!text || typeof text !== 'string'`
yields `[]`; otherwise `text.trim().split(/\s+/).filter(w => w.length > 0)`.
Note an empty string is falsy in JavaScript, hence the `s = ""` branch. -/
def extractWords (text : JSInput) : List String :=
  match text with
  | .str s =>
    if s = "" then []
    else
      ((jsSplitWs (jsTrim s.data)).map (fun frag => String.mk frag)).filter
        (fun word => decide (word.length > 0))
  | .null => []
  | .undefined => []
  | .nonString => []

/-- Specification-side tokenizer (the spec's words: trim the ends, split
on runs of one-or-more whitespace characters, exclude empty fragments —
i.e. the maximal runs of non-whitespace characters, in order).  `cur`
holds the current word reversed. -/
def specTokenizeAux : List Char → List Char → List (List Char)
  | [], cur => if cur = [] then [] else [cur.reverse]
  | c :: cs, cur =>
    if isWs c then
      if cur = [] then specTokenizeAux cs []
      else cur.reverse :: specTokenizeAux cs []
    else specTokenizeAux cs (c :: cur)

/-- Specification-side tokenizer on a string: the ordered sequence of
maximal non-whitespace runs, byte-for-byte, no case folding. -/
def specTokenize (s : String) : List String :=
  (specTokenizeAux s.data []).map (fun frag => String.mk frag)

/-- The property names a fresh `{}` inherits from `Object.prototype`.  A
read of `wordCount[w]` for such `w` finds the inherited function or
accessor when no own property has been written — and for `"__proto__"`
even the write `wordCount[w] = v` with a primitive `v` is a silent no-op
of the inherited setter, so no own property ever exists. -/
def objectPrototypeKeys : List String :=
  ["constructor", "hasOwnProperty", "isPrototypeOf", "propertyIsEnumerable",
   "toLocaleString", "toString", "valueOf", "__defineGetter__",
   "__defineSetter__", "__lookupGetter__", "__lookupSetter__", "__proto__"]

/-- The arithmetic value of `wordCount[word] || 0` after the counting
pass over `ws`: `some` of the occurrence count for an ordinary word (an
absent word reads `undefined` and `|| 0` defaults it to 0), and `none`
when `word` collides with a property of `Object.prototype` — the first
read then yields the truthy inherited value, `(inherited || 0) + 1`
concatenates it into a non-numeric string (or, for `"__proto__"`, the
write is a no-op and every read stays the prototype object), `|| 0`
keeps the truthy non-number, and arithmetic on it is NaN. -/
def jsWordCount (ws : List String) (w : String) : Option Nat :=
  if w ∈ objectPrototypeKeys then none
  else some (ws.count w)

/-- The loop of `findAddedWords`: iterate over `l`, skip words already
in the `processedWords` set, and for a fresh word push it once per unit
of `newCount - oldCount` when `newCount > oldCount`.  When either
lookup is a non-number (`jsWordCount` is `none`), the subtraction is
NaN and `for (let i = 0; i < NaN; i++)` runs zero times, so nothing is
pushed regardless of the `>` comparison's outcome. -/
def findAddedWordsAux (oldWords newWords : List String) :
    List String → List String → List String
  | [], _ => []
  | w :: rest, processedWords =>
    if w ∈ processedWords then
      findAddedWordsAux oldWords newWords rest processedWords
    else
      (match jsWordCount oldWords w, jsWordCount newWords w with
       | some oldCount, some newCount =>
         if newCount > oldCount then
           List.replicate (newCount - oldCount) w
         else []
       | _, _ => []) ++
        findAddedWordsAux oldWords newWords rest (w :: processedWords)

/-- `findAddedWords` from server.js: word counts are built over the two
full sequences, then the new sequence is walked once, each distinct word
handled at its first appearance. -/
def findAddedWords (oldWords newWords : List String) : List String :=
  findAddedWordsAux oldWords newWords newWords []

/-- The loop of `findRemovedWords`: same shape, walking `l` and pushing
once per unit of `oldCount - newCount` when `oldCount > newCount`, with
the same NaN behaviour on `Object.prototype` collisions. -/
def findRemovedWordsAux (oldWords newWords : List String) :
    List String → List String → List String
  | [], _ => []
  | w :: rest, processedWords =>
    if w ∈ processedWords then
      findRemovedWordsAux oldWords newWords rest processedWords
    else
      (match jsWordCount oldWords w, jsWordCount newWords w with
       | some oldCount, some newCount =>
         if oldCount > newCount then
           List.replicate (oldCount - newCount) w
         else []
       | _, _ => []) ++
        findRemovedWordsAux oldWords newWords rest (w :: processedWords)

/-- `findRemovedWords` from server.js: walks the old sequence. -/
def findRemovedWords (oldWords newWords : List String) : List String :=
  findRemovedWordsAux oldWords newWords oldWords []

/-- Replace the first occurrence of the character `T` by a space,
modelling `.replace('T', ' ')` on the sliced ISO timestamp. -/
def replaceFirstT : List Char → List Char
  | [] => []
  | c :: cs => if c = 'T' then ' ' :: cs else c :: replaceFirstT cs

/-- `now.toISOString().slice(0, 16).replace('T', ' ')` from
`generateVersionEntry`: the first sixteen characters of the ISO
timestamp with the date/time separator turned into a space. -/
def minuteTimestamp (isoNow : String) : String :=
  String.mk (replaceFirstT (isoNow.data.take 16))

/-- A non-string, non-null JSON value reachable through a request body's
`text` field (a number, a boolean, an array, an object), kept opaque up
to what the handler observes of it: `tag` identifies it up to strict
equality `===` (distinct primitive values, and object values of
distinct identity, carry distinct tags), `truthy` is its boolean
coercion (used by `|| ''`), and `lengthProp` is its `.length` property
when that is a natural number (`none` when it is `undefined`, as for
numbers and booleans; a `.length` that is not a natural number is
outside the abstraction). -/
structure NonStrVal where
  tag : Nat
  truthy : Bool
  lengthProp : Option Nat
  deriving DecidableEq

/-- A present JSON text value — submitted in `text` or persisted in
`currentText`: a string, or a non-string value.  Equality of this type
models strict equality `===` on present values: values of different
types are never equal, strings compare byte-for-byte, non-strings by
their identity tag. -/
inductive JSText where
  | str (s : String)
  | nonStr (v : NonStrVal)
  deriving DecidableEq

/-- View a present text value as an `extractWords` argument —
`extractWords`'s own `typeof` check turns every non-string into `[]`. -/
def JSText.asInput : JSText → JSInput
  | .str s => .str s
  | .nonStr _ => .nonString

/-- `data.currentText || ''`: a string passes through (for the empty
string, `'' || ''` is again `''`), a truthy non-string passes through, a
falsy non-string (`0`, `false`) is replaced by the empty string. -/
def jsOrEmpty : JSText → JSText
  | .str s => .str s
  | .nonStr v => if v.truthy then .nonStr v else .str ""

/-- JavaScript `x.length` on a present text value: the character count
of a string, and a non-string's `.length` property (`undefined`, that
is `none`, for numbers and booleans; the element count for arrays). -/
def jsLength : JSText → Option Nat
  | .str s => some s.length
  | .nonStr v => v.lengthProp

/-- The version record persisted per accepted save (the object literal
returned by `generateVersionEntry`).  The lengths are `Option Nat`
because `oldText.length` / `newText.length` is `undefined` when the
saved text value is not a string. -/
structure VersionEntry where
  id : String
  timestamp : String
  addedWords : List String
  removedWords : List String
  oldLength : Option Nat
  newLength : Option Nat
  deriving DecidableEq

/-- `generateVersionEntry(oldText, newText)` from server.js.  The two
ambient effects — `uuidv4()` and `new Date().toISOString()` — are passed
in as `freshId` and `isoNow`. -/
def generateVersionEntry (oldText newText : JSText) (freshId isoNow : String) :
    VersionEntry :=
  { id := freshId
    timestamp := minuteTimestamp isoNow
    addedWords := findAddedWords (extractWords oldText.asInput)
      (extractWords newText.asInput)
    removedWords := findRemovedWords (extractWords oldText.asInput)
      (extractWords newText.asInput)
    oldLength := jsLength oldText
    newLength := jsLength newText }

/-- The persisted store (versions.json): the version records newest
first and the current snapshot (a string unless a non-string text was
saved earlier). -/
structure Store where
  versions : List VersionEntry
  currentText : JSText
  deriving DecidableEq

/-- The `text` field of a `POST /save-version` request body: absent
(`undefined`), `null`, a string, or some other JSON value — the source
guards only `text === undefined || text === null`, with no `typeof`
check, so non-string values pass the guard. -/
inductive ReqText where
  | undefined
  | null
  | str (s : String)
  | nonStr (v : NonStrVal)
  deriving DecidableEq

/-- The externally visible outcome of `POST /save-version`:
400 missing-text, 200 no-change, 201 with the fresh record, or the
generic 500 produced by the catch block. -/
inductive SaveResponse where
  | badRequest
  | noChange
  | saved (v : VersionEntry)
  | serverError
  deriving DecidableEq

/-- The save path once `text` is known present: read the store, compare
`text === (data.currentText || '')` by strict equality, and on a change
build the entry, prepend it and replace the snapshot.  `readOk` /
`writeOk` say whether `readData()` / `writeData(data)` succeed (a
file-system failure throws and is caught as a 500, leaving the
persisted store as it was). -/
def saveWithText (textVal : JSText) (readOk writeOk : Bool) (store : Store)
    (freshId isoNow : String) : SaveResponse × Store :=
  if readOk then
    if textVal = jsOrEmpty store.currentText then (.noChange, store)
    else
      if writeOk then
        (.saved (generateVersionEntry (jsOrEmpty store.currentText) textVal
           freshId isoNow),
         { versions := generateVersionEntry (jsOrEmpty store.currentText) textVal
             freshId isoNow :: store.versions
           currentText := textVal })
      else (.serverError, store)
  else (.serverError, store)

/-- The `POST /save-version` handler: 400 when `text` is `undefined` or
`null` (checked before any file access), otherwise the save path on the
present value. -/
def handleSaveVersion (text : ReqText) (readOk writeOk : Bool) (store : Store)
    (freshId isoNow : String) : SaveResponse × Store :=
  match text with
  | .undefined => (.badRequest, store)
  | .null => (.badRequest, store)
  | .str t => saveWithText (.str t) readOk writeOk store freshId isoNow
  | .nonStr v => saveWithText (.nonStr v) readOk writeOk store freshId isoNow

/-! ### The differ's loops -/

theorem jsWordCount_eq_some {ws : List String} {w : String} {k : Nat}
    (h : jsWordCount ws w = some k) :
    k = ws.count w ∧ w ∉ objectPrototypeKeys := by
  unfold jsWordCount at h
  by_cases hw : w ∈ objectPrototypeKeys
  · rw [if_pos hw] at h
    exact absurd h (by simp)
  · rw [if_neg hw] at h
    exact ⟨(Option.some.inj h).symm, hw⟩

theorem findAddedWordsAux_self (A : List String) :
    ∀ (l processedWords : List String),
      findAddedWordsAux A A l processedWords = [] := by
  intro l
  induction l with
  | nil => intro p; rfl
  | cons w rest ih =>
    intro p
    by_cases h : w ∈ p
    · simp only [findAddedWordsAux, if_pos h]
      exact ih p
    · simp only [findAddedWordsAux, if_neg h]
      rw [ih (w :: p), List.append_nil]
      cases jsWordCount A w with
      | none => rfl
      | some k => simp

theorem findRemovedWordsAux_swap (A B : List String) :
    ∀ (l p : List String),
      findRemovedWordsAux A B l p = findAddedWordsAux B A l p := by
  intro l
  induction l with
  | nil => intro p; rfl
  | cons w rest ih =>
    intro p
    by_cases h : w ∈ p
    · simp only [findRemovedWordsAux, findAddedWordsAux, if_pos h]
      exact ih p
    · simp only [findRemovedWordsAux, findAddedWordsAux, if_neg h]
      rw [ih (w :: p)]
      cases jsWordCount A w <;> cases jsWordCount B w <;> rfl

theorem findAddedWords_self (A : List String) : findAddedWords A A = [] :=
  findAddedWordsAux_self A A []

theorem findRemovedWords_swap (A B : List String) :
    findRemovedWords A B = findAddedWords B A :=
  findRemovedWordsAux_swap A B A []

theorem findRemovedWords_self (A : List String) : findRemovedWords A A = [] := by
  rw [findRemovedWords_swap]
  exact findAddedWords_self A

theorem count_lt_of_mem_findAddedWordsAux {A B : List String} {x : String} :
    ∀ {l p : List String},
      x ∈ findAddedWordsAux A B l p → A.count x < B.count x := by
  intro l
  induction l with
  | nil =>
    intro p h
    simp [findAddedWordsAux] at h
  | cons w rest ih =>
    intro p hx
    simp only [findAddedWordsAux] at hx
    by_cases h : w ∈ p
    · rw [if_pos h] at hx
      exact ih hx
    · rw [if_neg h] at hx
      rcases List.mem_append.mp hx with h1 | h2
      · cases hA : jsWordCount A w with
        | none =>
          rw [hA] at h1
          cases hB : jsWordCount B w with
          | none =>
            rw [hB] at h1
            exact absurd h1 (List.not_mem_nil x)
          | some b =>
            rw [hB] at h1
            exact absurd h1 (List.not_mem_nil x)
        | some a =>
          rw [hA] at h1
          cases hB : jsWordCount B w with
          | none =>
            rw [hB] at h1
            exact absurd h1 (List.not_mem_nil x)
          | some b =>
            rw [hB] at h1
            have h2 : x ∈ (if b > a then List.replicate (b - a) w else []) := h1
            by_cases hg : b > a
            · rw [if_pos hg] at h2
              obtain ⟨-, rfl⟩ := List.mem_replicate.mp h2
              obtain ⟨ha, -⟩ := jsWordCount_eq_some hA
              obtain ⟨hb, -⟩ := jsWordCount_eq_some hB
              rw [← ha, ← hb]
              exact hg
            · rw [if_neg hg] at h2
              exact absurd h2 (List.not_mem_nil x)
      · exact ih h2

theorem count_lt_of_mem_findAddedWords {A B : List String} {x : String}
    (hx : x ∈ findAddedWords A B) : A.count x < B.count x := by
  unfold findAddedWords at hx
  exact count_lt_of_mem_findAddedWordsAux hx

/-! ### Claim evidence about the differ -/

/-- C1 (code-bug evidence): `"constructor"` collides with an
`Object.prototype` property, so the plain-object count lookup returns a
truthy non-number, `newCount - oldCount` is NaN and the push loop runs
zero times — nothing is emitted although the word's count in the new
sequence (1) exceeds its count in the old sequence (0); dually for
removal.  This contradicts the claimed emission law, which demands one
appended copy. -/
theorem prototype_collision_breaks_emission_law :
    findAddedWords [] ["constructor"] = []
    ∧ findRemovedWords ["constructor"] [] = []
    ∧ List.count "constructor" ["constructor"] = 1
    ∧ List.count "constructor" ([] : List String) = 0 := by
  decide

/-- C3 (code-bug evidence): diffing `[]` against `["constructor"]`
yields two empty lists although the two sequences do not carry the same
multiplicities, refuting the claimed equivalence on the code. -/
theorem diff_empty_despite_different_multiset :
    findAddedWords [] ["constructor"] = []
    ∧ findRemovedWords [] ["constructor"] = []
    ∧ List.count "constructor" ([] : List String)
        ≠ List.count "constructor" ["constructor"] := by
  decide

/-- C4: diffing is symmetric — the added list of `(A, B)` is the removed
list of `(B, A)` and conversely (the two loops compare and subtract the
same two lookups, including the NaN cases, and both walk `B`). -/
theorem diff_added_removed_symmetry (A B : List String) :
    findAddedWords A B = findRemovedWords B A
    ∧ findRemovedWords A B = findAddedWords B A :=
  ⟨(findRemovedWords_swap B A).symm, findRemovedWords_swap A B⟩

/-- C5: diffing a word sequence against itself yields two empty lists —
equal numeric counts emit nothing, and prototype-colliding words emit
nothing either. -/
theorem diff_self_empty (A : List String) :
    findAddedWords A A = [] ∧ findRemovedWords A A = [] :=
  ⟨findAddedWords_self A, findRemovedWords_self A⟩

/-- C10: no word occurs in both output lists of one differ invocation —
a word is emitted as added only with numeric counts and the new count
strictly above the old one, and as removed only under the opposite
strict inequality. -/
theorem added_removed_share_no_word (A B : List String) :
    findAddedWords A B ∩ findRemovedWords A B = [] := by
  rw [List.eq_nil_iff_forall_not_mem]
  intro x hx
  rw [List.mem_inter_iff] at hx
  have h1 : A.count x < B.count x := count_lt_of_mem_findAddedWords hx.1
  have h2 : B.count x < A.count x := by
    have hm := hx.2
    rw [findRemovedWords_swap] at hm
    exact count_lt_of_mem_findAddedWords hm
  exact Nat.lt_asymm h1 h2

/-! ### The tokenizer: trim + split + filter equals maximal-run extraction -/

theorem filter_jsSplitWsAux (cs : List Char) :
    (∀ cur, (jsSplitWsAux cs cur false).filter (fun frag => decide (frag.length > 0))
        = specTokenizeAux cs cur)
    ∧ (∀ cur, (jsSplitWsAux cs cur true).filter (fun frag => decide (frag.length > 0))
        = specTokenizeAux cs []) := by
  induction cs with
  | nil =>
    constructor
    · intro cur
      cases cur with
      | nil => rfl
      | cons c cur' => simp [jsSplitWsAux, specTokenizeAux]
    · intro cur
      rfl
  | cons c cs ih =>
    constructor
    · intro cur
      by_cases hw : isWs c
      · cases cur with
        | nil => simp [jsSplitWsAux, specTokenizeAux, hw, ih.2]
        | cons x xs => simp [jsSplitWsAux, specTokenizeAux, hw, ih.2]
      · simp [jsSplitWsAux, specTokenizeAux, hw, ih.1]
    · intro cur
      by_cases hw : isWs c
      · simp [jsSplitWsAux, specTokenizeAux, hw, ih.2]
      · simp [jsSplitWsAux, specTokenizeAux, hw, ih.1]

theorem specTokenizeAux_allWs :
    ∀ (ts : List Char), (∀ c ∈ ts, isWs c = true) →
      ∀ cur, specTokenizeAux ts cur = if cur = [] then [] else [cur.reverse] := by
  intro ts
  induction ts with
  | nil => intro _ cur; rfl
  | cons t ts ih =>
    intro h cur
    have ht : isWs t = true := h t (List.mem_cons_self t ts)
    have ih2 := ih (fun c hc => h c (List.mem_cons_of_mem t hc))
    cases cur with
    | nil => simp [specTokenizeAux, ht, ih2]
    | cons x xs => simp [specTokenizeAux, ht, ih2]

theorem specTokenizeAux_append_allWs (ts : List Char)
    (hts : ∀ c ∈ ts, isWs c = true) :
    ∀ (cs cur : List Char),
      specTokenizeAux (cs ++ ts) cur = specTokenizeAux cs cur := by
  intro cs
  induction cs with
  | nil =>
    intro cur
    rw [List.nil_append, specTokenizeAux_allWs ts hts cur]
    rfl
  | cons c cs ih =>
    intro cur
    by_cases hw : isWs c
    · simp [specTokenizeAux, hw, ih]
    · simp [specTokenizeAux, hw, ih]

theorem specTokenizeAux_dropWhile (cs : List Char) :
    specTokenizeAux (cs.dropWhile isWs) [] = specTokenizeAux cs [] := by
  induction cs with
  | nil => rfl
  | cons c cs ih =>
    by_cases hw : isWs c
    · rw [List.dropWhile_cons, if_pos hw, ih]
      simp [specTokenizeAux, hw]
    · rw [List.dropWhile_cons, if_neg hw]

theorem specTokenizeAux_jsTrim (cs : List Char) :
    specTokenizeAux (jsTrim cs) [] = specTokenizeAux cs [] := by
  have hdecomp : cs.dropWhile isWs
      = ((cs.dropWhile isWs).reverse.dropWhile isWs).reverse
        ++ ((cs.dropWhile isWs).reverse.takeWhile isWs).reverse := by
    conv_lhs => rw [← List.reverse_reverse (cs.dropWhile isWs),
      ← List.takeWhile_append_dropWhile isWs (cs.dropWhile isWs).reverse]
    rw [List.reverse_append]
  have hws : ∀ c ∈ ((cs.dropWhile isWs).reverse.takeWhile isWs).reverse,
      isWs c = true := by
    intro c hc
    exact List.mem_takeWhile_imp (List.mem_reverse.mp hc)
  calc specTokenizeAux (jsTrim cs) []
      = specTokenizeAux (jsTrim cs
          ++ ((cs.dropWhile isWs).reverse.takeWhile isWs).reverse) [] :=
        (specTokenizeAux_append_allWs _ hws _ []).symm
    _ = specTokenizeAux (cs.dropWhile isWs) [] := by rw [jsTrim, ← hdecomp]
    _ = specTokenizeAux cs [] := specTokenizeAux_dropWhile cs

theorem extractWords_str_eq (s : String) :
    extractWords (.str s) = specTokenize s := by
  by_cases hs : s = ""
  · subst hs
    rfl
  · have hmk : ((fun word => decide (word.length > 0)) ∘ String.mk)
        = fun frag : List Char => decide (frag.length > 0) := rfl
    have h1 : extractWords (.str s)
        = ((jsSplitWs (jsTrim s.data)).map (fun frag => String.mk frag)).filter
            (fun word => decide (word.length > 0)) := by
      simp [extractWords, hs]
    rw [h1, show (fun frag : List Char => String.mk frag) = String.mk from rfl,
      List.filter_map, hmk, specTokenize]
    congr 1
    calc (jsSplitWs (jsTrim s.data)).filter (fun frag => decide (frag.length > 0))
        = specTokenizeAux (jsTrim s.data) [] := (filter_jsSplitWsAux (jsTrim s.data)).1 []
      _ = specTokenizeAux s.data [] := specTokenizeAux_jsTrim s.data

/-- C6: the tokenizer returns exactly the maximal runs of non-whitespace
characters of the input, in order and byte-for-byte (the result of
trimming, splitting on whitespace runs and dropping empty fragments),
and maps `null`, `undefined` and non-string input to the empty sequence
instead of failing. -/
theorem extractWords_tokenizes_on_whitespace_runs :
    (∀ s : String, extractWords (.str s) = specTokenize s)
    ∧ extractWords .null = []
    ∧ extractWords .undefined = []
    ∧ extractWords .nonString = [] :=
  ⟨extractWords_str_eq, rfl, rfl, rfl⟩

/-! ### The save-version handler and the version record builder -/

/-- C2: with working persistence, a save whose string text differs (by
the handler's strict comparison, which on a string snapshot is exactly
byte-for-byte string inequality) from the stored snapshot prepends
exactly one fresh record and replaces the snapshot; a save whose text
equals the snapshot changes nothing; hence submitting the same text
twice stores exactly one record. -/
theorem save_version_creates_record_iff_text_differs
    (t : String) (store : Store) (id1 iso1 id2 iso2 : String) :
    (JSText.str t ≠ jsOrEmpty store.currentText →
      handleSaveVersion (.str t) true true store id1 iso1
        = (.saved (generateVersionEntry (jsOrEmpty store.currentText) (.str t)
             id1 iso1),
           { versions := generateVersionEntry (jsOrEmpty store.currentText)
               (.str t) id1 iso1 :: store.versions
             currentText := .str t }))
    ∧ (JSText.str t = jsOrEmpty store.currentText →
      handleSaveVersion (.str t) true true store id1 iso1 = (.noChange, store))
    ∧ (∀ s0 : String, store.currentText = .str s0 →
        (JSText.str t = jsOrEmpty store.currentText ↔ t = s0))
    ∧ (JSText.str t ≠ jsOrEmpty store.currentText →
      handleSaveVersion (.str t) true true
          (handleSaveVersion (.str t) true true store id1 iso1).2 id2 iso2
        = (.noChange, (handleSaveVersion (.str t) true true store id1 iso1).2)
      ∧ (handleSaveVersion (.str t) true true store id1 iso1).2.versions.length
          = store.versions.length + 1) := by
  refine ⟨?_, ?_, ?_, ?_⟩
  · intro h
    simp [handleSaveVersion, saveWithText, h]
  · intro h
    simp [handleSaveVersion, saveWithText, h]
  · intro s0 h
    rw [h]
    simp [jsOrEmpty]
  · intro h
    have h1 : handleSaveVersion (.str t) true true store id1 iso1
        = (.saved (generateVersionEntry (jsOrEmpty store.currentText) (.str t)
             id1 iso1),
           { versions := generateVersionEntry (jsOrEmpty store.currentText)
               (.str t) id1 iso1 :: store.versions
             currentText := .str t }) := by
      simp [handleSaveVersion, saveWithText, h]
    rw [h1]
    refine ⟨?_, by simp⟩
    simp [handleSaveVersion, saveWithText, jsOrEmpty]

/-- C2 witness: saving "a" over a store holding the empty snapshot
creates and prepends the record. -/
theorem save_version_creates_record_iff_text_differs_instance :
    handleSaveVersion (.str "a") true true (Store.mk [] (.str "")) "id-1" "iso-1"
      = (.saved (generateVersionEntry (jsOrEmpty (Store.mk [] (.str "")).currentText)
           (.str "a") "id-1" "iso-1"),
         { versions := generateVersionEntry
             (jsOrEmpty (Store.mk [] (.str "")).currentText) (.str "a") "id-1" "iso-1"
             :: (Store.mk [] (.str "")).versions
           currentText := .str "a" }) :=
  (save_version_creates_record_iff_text_differs "a" (Store.mk [] (.str ""))
    "id-1" "iso-1" "id-2" "iso-2").1 (by decide)

/-- C7: two string snapshots that tokenize identically (for instance
differing only in whitespace) produce a version entry whose added and
removed lists are both empty, while the save still mints a record
because the handler compares the raw strings byte-for-byte. -/
theorem whitespace_only_change_empty_diff
    (s1 s2 freshId isoNow : String) (store : Store)
    (htok : extractWords (.str s1) = extractWords (.str s2))
    (hne : s1 ≠ s2) (hcur : store.currentText = .str s1) :
    (generateVersionEntry (.str s1) (.str s2) freshId isoNow).addedWords = []
    ∧ (generateVersionEntry (.str s1) (.str s2) freshId isoNow).removedWords = []
    ∧ (handleSaveVersion (.str s2) true true store freshId isoNow).1
        = .saved (generateVersionEntry (.str s1) (.str s2) freshId isoNow) := by
  refine ⟨?_, ?_, ?_⟩
  · show findAddedWords (extractWords (.str s1)) (extractWords (.str s2)) = []
    rw [htok]
    exact findAddedWords_self _
  · show findRemovedWords (extractWords (.str s1)) (extractWords (.str s2)) = []
    rw [htok]
    exact findRemovedWords_self _
  · simp [handleSaveVersion, saveWithText, hcur, jsOrEmpty, Ne.symm hne]

/-- C7 witness: "hello  world" versus "hello world". -/
theorem whitespace_only_change_empty_diff_instance :
    (generateVersionEntry (.str "hello  world") (.str "hello world")
        "id-1" "iso-1").addedWords = []
    ∧ (generateVersionEntry (.str "hello  world") (.str "hello world")
        "id-1" "iso-1").removedWords = []
    ∧ (handleSaveVersion (.str "hello world") true true
        (Store.mk [] (.str "hello  world")) "id-1" "iso-1").1
        = .saved (generateVersionEntry (.str "hello  world") (.str "hello world")
            "id-1" "iso-1") :=
  whitespace_only_change_empty_diff "hello  world" "hello world" "id-1" "iso-1"
    (Store.mk [] (.str "hello  world")) (by decide) (by decide) rfl

theorem replaceFirstT_append (xs ys : List Char) (h : ∀ c ∈ xs, c ≠ 'T') :
    replaceFirstT (xs ++ 'T' :: ys) = xs ++ ' ' :: ys := by
  induction xs with
  | nil => simp [replaceFirstT]
  | cons x xs ih =>
    have hx : x ≠ 'T' := h x (List.mem_cons_self x xs)
    simp [replaceFirstT, hx, ih (fun c hc => h c (List.mem_cons_of_mem x hc))]

/-- C8: the version record built from two string snapshots carries their
character counts (not word counts), the injected fresh identifier, and
the clock's ISO timestamp cut at minute precision into a
sixteen-character "date space time" string. -/
theorem generateVersionEntry_fields (oldText newText freshId d t : String)
    (hd10 : d.data.length = 10) (hdT : ∀ c ∈ d.data, c ≠ 'T')
    (ht5 : 5 ≤ t.data.length) :
    (generateVersionEntry (.str oldText) (.str newText) freshId
        (d ++ "T" ++ t)).oldLength = some oldText.length
    ∧ (generateVersionEntry (.str oldText) (.str newText) freshId
        (d ++ "T" ++ t)).newLength = some newText.length
    ∧ (generateVersionEntry (.str oldText) (.str newText) freshId
        (d ++ "T" ++ t)).id = freshId
    ∧ (generateVersionEntry (.str oldText) (.str newText) freshId
        (d ++ "T" ++ t)).timestamp.data = d.data ++ ' ' :: t.data.take 5
    ∧ (generateVersionEntry (.str oldText) (.str newText) freshId
        (d ++ "T" ++ t)).timestamp.length = 16 := by
  have hT : ("T" : String).data = ['T'] := rfl
  have hdata : (d ++ "T" ++ t).data = d.data ++ 'T' :: t.data := by
    simp [String.data_append, hT]
  have hle : d.data.length ≤ 16 := by omega
  have htake : (d ++ "T" ++ t).data.take 16 = d.data ++ 'T' :: t.data.take 5 := by
    rw [hdata, List.take_append_eq_append_take, List.take_of_length_le hle, hd10]
    rfl
  have hts : (generateVersionEntry (.str oldText) (.str newText) freshId
      (d ++ "T" ++ t)).timestamp.data = d.data ++ ' ' :: t.data.take 5 := by
    show (minuteTimestamp (d ++ "T" ++ t)).data = _
    show replaceFirstT ((d ++ "T" ++ t).data.take 16) = _
    rw [htake]
    exact replaceFirstT_append d.data (t.data.take 5) hdT
  refine ⟨rfl, rfl, rfl, hts, ?_⟩
  show (generateVersionEntry (.str oldText) (.str newText) freshId
      (d ++ "T" ++ t)).timestamp.data.length = 16
  rw [hts]
  have ht5l : 5 ≤ t.length := ht5
  simp [List.length_append, List.length_take, hd10]
  omega

/-- C8 witness: a concrete ISO instant. -/
theorem generateVersionEntry_fields_instance :
    (generateVersionEntry (.str "ab") (.str "abc d") "id-1"
        ("2025-01-02" ++ "T" ++ "03:04:05.678Z")).oldLength
        = some ("ab" : String).length
    ∧ (generateVersionEntry (.str "ab") (.str "abc d") "id-1"
        ("2025-01-02" ++ "T" ++ "03:04:05.678Z")).newLength
        = some ("abc d" : String).length
    ∧ (generateVersionEntry (.str "ab") (.str "abc d") "id-1"
        ("2025-01-02" ++ "T" ++ "03:04:05.678Z")).id = "id-1"
    ∧ (generateVersionEntry (.str "ab") (.str "abc d") "id-1"
        ("2025-01-02" ++ "T" ++ "03:04:05.678Z")).timestamp.data
        = ("2025-01-02" : String).data ++ ' ' :: ("03:04:05.678Z" : String).data.take 5
    ∧ (generateVersionEntry (.str "ab") (.str "abc d") "id-1"
        ("2025-01-02" ++ "T" ++ "03:04:05.678Z")).timestamp.length = 16 :=
  generateVersionEntry_fields "ab" "abc d" "id-1" "2025-01-02" "03:04:05.678Z"
    (by decide) (by decide) (by decide)

/-- C9: over the full request domain — absent, null, string, or other
JSON value — the handler answers 400 with the store untouched exactly
when the text field is absent or null (a non-string, non-null value
passes the guard); a 500 can only come from a failing persistence read
or write, and also leaves the store untouched. -/
theorem save_version_failure_classes (text : ReqText) (readOk writeOk : Bool)
    (store : Store) (freshId isoNow : String) :
    ((handleSaveVersion text readOk writeOk store freshId isoNow).1 = .badRequest
      ↔ (text = .undefined ∨ text = .null))
    ∧ (text = .undefined ∨ text = .null →
        handleSaveVersion text readOk writeOk store freshId isoNow
          = (.badRequest, store))
    ∧ ((handleSaveVersion text readOk writeOk store freshId isoNow).1 = .serverError →
        (readOk = false ∨ writeOk = false)
        ∧ (handleSaveVersion text readOk writeOk store freshId isoNow).2 = store)
    ∧ (∀ t, text = .str t → readOk = false →
        (handleSaveVersion text readOk writeOk store freshId isoNow).1 = .serverError)
    ∧ (∀ v, text = .nonStr v → readOk = false →
        (handleSaveVersion text readOk writeOk store freshId isoNow).1 = .serverError) := by
  cases text with
  | undefined => simp [handleSaveVersion]
  | null => simp [handleSaveVersion]
  | str t =>
    cases readOk with
    | false => simp [handleSaveVersion, saveWithText]
    | true =>
      by_cases h : JSText.str t = jsOrEmpty store.currentText
      · simp [handleSaveVersion, saveWithText, h]
      · cases writeOk with
        | false => simp [handleSaveVersion, saveWithText, h]
        | true => simp [handleSaveVersion, saveWithText, h]
  | nonStr v =>
    cases readOk with
    | false => simp [handleSaveVersion, saveWithText]
    | true =>
      by_cases h : JSText.nonStr v = jsOrEmpty store.currentText
      · simp [handleSaveVersion, saveWithText, h]
      · cases writeOk with
        | false => simp [handleSaveVersion, saveWithText, h]
        | true => simp [handleSaveVersion, saveWithText, h]

/-- C9 witness: an absent text field yields 400 and an unchanged store. -/
theorem save_version_failure_classes_instance :
    handleSaveVersion .undefined true true (Store.mk [] (.str "")) "id-1" "iso-1"
      = (.badRequest, Store.mk [] (.str "")) :=
  (save_version_failure_classes .undefined true true (Store.mk [] (.str ""))
    "id-1" "iso-1").2.1 (Or.inl rfl)

end MiniAuditTrail
